import Mathlib

/-!
Verification of the @etsoo/restclient request pipeline.

The development shallowly embeds the core of the library: the abstract
class `ApiBase` of src/unnamed/part_002 (header abstraction, content
negotiation, body formatting, configuration merging, response
classification and the request orchestrator), the helper predicates of
src/src/IApi.ts and src/src/Utils.ts, and the fetch transport adapter of
src/src/FetchApi.ts.  JavaScript objects are modelled as association
lists in insertion order (keys unique, as for JS objects), JavaScript
values as the inductive `JsValue` (arrays and functions are not needed by
any statement below and are omitted; `null` also stands for `undefined`
wherever only `== null` tests are involved), and promise-based control
flow as explicit outcome values.  Builtins (`toLowerCase`, `parseInt`,
`JSON.parse`) are modelled explicitly or taken as parameters.
-/

set_option autoImplicit false

namespace RestClient

/-- Model of the JavaScript `String.prototype.toLowerCase` builtin
(character-wise lowering, which agrees with JS on the ASCII header names
used throughout the library). -/
def lowerStr (s : String) : String :=
  ⟨s.data.map Char.toLower⟩

theorem char_toLower_toLower (c : Char) :
    Char.toLower (Char.toLower c) = Char.toLower c := by
  unfold Char.toLower
  by_cases h : c.toNat ≥ 65 ∧ c.toNat ≤ 90
  · rw [if_pos h]
    have hval : (Char.ofNat (c.toNat + 32)).toNat = c.toNat + 32 := by
      unfold Char.ofNat
      rw [dif_pos (Or.inl (by omega))]
      rfl
    rw [if_neg (by omega)]
  · rw [if_neg h, if_neg h]

theorem lowerStr_idem (s : String) : lowerStr (lowerStr s) = lowerStr s := by
  unfold lowerStr
  simp only [List.map_map]
  congr 1
  exact List.map_congr_left (fun c _ => char_toLower_toLower c)

/-- Model of JavaScript JSON-like values (the payloads, configuration
entries and decoded response bodies the claims are about). -/
inductive JsValue where
  | null : JsValue
  | bool (b : Bool) : JsValue
  | num (n : Int) : JsValue
  | str (s : String) : JsValue
  | obj (fields : List (String × JsValue)) : JsValue

/-- JavaScript truthiness of a `JsValue` (`null`/`false`/`0`/empty string
are falsy, every object is truthy). -/
def jsTruthy : JsValue → Bool
  | .null => false
  | .bool b => b
  | .num n => n != 0
  | .str s => s != ""
  | .obj _ => true

/-- JavaScript `String(v)` coercion, as performed by the `Error`
constructor on its message argument. -/
def jsToString : JsValue → String
  | .null => "null"
  | .bool b => if b then "true" else "false"
  | .num n => toString n
  | .str s => s
  | .obj _ => "[object Object]"

/-- Evaluation of `a || b` on JavaScript values. -/
def jsOr (a b : JsValue) : JsValue :=
  if jsTruthy a then a else b

/-- First-match lookup in a JS object (property read). -/
def objGet : List (String × JsValue) → String → Option JsValue
  | [], _ => none
  | e :: rest, k => if e.1 == k then some e.2 else objGet rest k

/-- Test of `key in obj`. -/
def objHasKey (o : List (String × JsValue)) (k : String) : Bool :=
  o.any (fun e => e.1 == k)

/-- Property write on a JS object: overwrite the value in place when the
key exists, append the key otherwise. -/
def objSet : List (String × JsValue) → String → JsValue → List (String × JsValue)
  | [], k, v => [(k, v)]
  | e :: rest, k, v => if e.1 == k then (e.1, v) :: rest else e :: objSet rest k v

/-- Object spread `{...a, ...b}`: every entry of `b` written over a copy
of `a` in order. -/
def objSpread (a b : List (String × JsValue)) : List (String × JsValue) :=
  b.foldl (fun acc e => objSet acc e.1 e.2) a

/-- The three header representations accepted by the library
(type `HeadersAll` of src/src/IApi.ts): an ordered list of key/value
pairs, the native `Headers` container, and a plain string dictionary.
The native container is modelled by its internal header list with the
names the library wrote into it; `Headers.append` is never used by this
code base, so duplicate names never arise in the native container. -/
inductive HeadersAll where
  | pairs (entries : List (String × String)) : HeadersAll
  | native (entries : List (String × String)) : HeadersAll
  | dict (entries : List (String × String)) : HeadersAll

/-- Entry list of a header container. -/
def HeadersAll.entries : HeadersAll → List (String × String)
  | .pairs l => l
  | .native l => l
  | .dict l => l

/-- Number of header entries of a container. -/
def headerCount (h : HeadersAll) : Nat :=
  h.entries.length

/-- Case-insensitive first-match search shared by the three
representations: the query key is already lowered, stored keys are
lowered before comparison (`item[0].toLowerCase() === key`). -/
def hdrFind (k : String) : List (String × String) → Option String
  | [] => none
  | e :: rest => if lowerStr e.1 == k then some e.2 else hdrFind k rest

/-- Write with an already-lowered key `k`: the first entry whose key is a
case-variant of `k` gets the new value in place (`array[index][1] =
value` / `headers[matchKey] = value`), otherwise the lowered key is
appended (`array.push([key, value])` / `headers[key] = value`). -/
def hdrSet (k v : String) : List (String × String) → List (String × String)
  | [] => [(k, v)]
  | e :: rest => if lowerStr e.1 == k then (e.1, v) :: rest else e :: hdrSet k v rest

/-- Removal with an already-lowered key (`splice` / `delete`): drop the
first case-variant entry. -/
def hdrRemove (k : String) : List (String × String) → List (String × String)
  | [] => []
  | e :: rest => if lowerStr e.1 == k then rest else e :: hdrRemove k rest

/-- Embedding of `ApiBase.getHeaderValue` (src/unnamed/part_002 lines
476-502): the key is lowered once, then each representation is searched
case-insensitively for the first matching entry.  Native containers are
also captured by the iterable branch, but reading the `Array.from` copy
is equivalent to reading the entry list. -/
def getHeaderValue (h : HeadersAll) (key : String) : Option String :=
  let k := lowerStr key
  match h with
  | .pairs l => hdrFind k l
  | .native l => hdrFind k l
  | .dict l => hdrFind k l

/-- JS truthiness of `string | null | undefined` (the empty string is
falsy, so writing an empty value removes the header). -/
def strTruthy : Option String → Bool
  | some s => s != ""
  | none => false

/-- Embedding of `ApiBase.setHeaderValue` (src/unnamed/part_002 lines
543-581): the key is lowered once.  For the pair-list representation
(`Array.isArray` true, mutation in place) a truthy value overwrites the
first case-variant entry or is appended under the lowered key, and a
falsy value removes the first case-variant entry.  A native `Headers`
container is iterable, so it is captured by the same
`isIterable(headers) || Array.isArray(headers)` branch, where
`Array.from(headers)` builds a fresh copy of the entries; the push,
assignment and splice mutate only that copy and the function returns,
so the write is a no-op on native containers (the `instanceof Headers`
branch below is unreachable, contrary to the comment in the source
claiming the copy can never happen).  For the plain dictionary the
first case-variant key is assigned in place, otherwise the lowered key
is added. -/
def setHeaderValue (key : String) (value : Option String) (h : HeadersAll) : HeadersAll :=
  let k := lowerStr key
  match h with
  | .pairs l =>
      .pairs (if strTruthy value then hdrSet k (value.getD "") l else hdrRemove k l)
  | .native l => .native l
  | .dict l =>
      .dict (if strTruthy value then hdrSet k (value.getD "") l else hdrRemove k l)

/-- Embedding of `ApiBase.getContentType`: case-insensitive read of `Content-Type`. -/
def getContentType (h : HeadersAll) : Option String :=
  getHeaderValue h "Content-Type"

/-- The JavaScript `parseInt` result: an integer or `NaN`. -/
inductive JSNumber where
  | num (n : Int) : JSNumber
  | nan : JSNumber
  deriving DecidableEq

/-- Hexadecimal digit test. -/
def isHexDigit (c : Char) : Bool :=
  c.isDigit || (97 ≤ c.toNat && c.toNat ≤ 102) || (65 ≤ c.toNat && c.toNat ≤ 70)

/-- Digit value of a (hexa)decimal digit character. -/
def digitVal (c : Char) : Nat :=
  if c.isDigit then c.toNat - 48
  else if 97 ≤ c.toNat && c.toNat ≤ 102 then c.toNat - 87
  else c.toNat - 55

/-- Model of the JavaScript `parseInt(string)` builtin with no radix
argument: skip leading whitespace, read an optional sign, switch to base
16 after a `0x`/`0X` prefix, take the longest run of digits; no digits
at all gives `NaN`, otherwise trailing garbage is ignored. -/
def jsParseInt (s : String) : JSNumber :=
  let cs := s.data.dropWhile Char.isWhitespace
  let signAndRest : Int × List Char :=
    match cs with
    | '-' :: r => (-1, r)
    | '+' :: r => (1, r)
    | _ => (1, cs)
  let baseAndRest : Nat × List Char :=
    match signAndRest.2 with
    | '0' :: 'x' :: r => (16, r)
    | '0' :: 'X' :: r => (16, r)
    | _ => (10, signAndRest.2)
  let isBaseDigit : Char → Bool :=
    if baseAndRest.1 == 16 then isHexDigit else Char.isDigit
  let digits := baseAndRest.2.takeWhile isBaseDigit
  if digits.isEmpty then .nan
  else .num (signAndRest.1 * (digits.foldl (fun a c => a * baseAndRest.1 + digitVal c) 0 : Nat))

/-- Embedding of `ApiBase.getContentLength` (src/unnamed/part_002 lines 417-421):
`undefined` when the `content-length` header is absent or empty,
otherwise `parseInt` of its value. -/
def getContentLength (h : HeadersAll) : Option JSNumber :=
  match getHeaderValue h "content-length" with
  | none => none
  | some cl => if cl == "" then none else some (jsParseInt cl)

/-- Embedding of `Utils.isJSONContentType` (src/src/Utils.ts lines 95-105): a truthy
type that contains "json" or starts with "application/javascript". -/
def charsContains : List Char → List Char → Bool
  | [], needle => needle.isEmpty
  | a :: rest, needle => needle.isPrefixOf (a :: rest) || charsContains rest needle

/-- Model of the JavaScript `String.prototype.includes` builtin. -/
def strIncludes (s sub : String) : Bool :=
  charsContains s.data sub.data

/-- Model of the JavaScript `String.prototype.startsWith` builtin. -/
def strStartsWith (s p : String) : Bool :=
  p.data.isPrefixOf s.data

/-- Model of the JavaScript `String.prototype.endsWith` builtin. -/
def strEndsWith (s p : String) : Bool :=
  p.data.reverse.isPrefixOf s.data.reverse

def splitCharAux (sep : Char) : List Char → List Char → List String
  | [], acc => [⟨acc.reverse⟩]
  | c :: rest, acc =>
      if c = sep then ⟨acc.reverse⟩ :: splitCharAux sep rest []
      else splitCharAux sep rest (c :: acc)

/-- Model of the JavaScript `String.prototype.split` builtin with a
one-character separator. -/
def splitChar (sep : Char) (s : String) : List String :=
  splitCharAux sep s.data []

/-- Model of the JavaScript `String.prototype.trim` builtin. -/
def strTrim (s : String) : String :=
  ⟨((s.data.dropWhile Char.isWhitespace).reverse.dropWhile Char.isWhitespace).reverse⟩

def isJSONContentType (contentType : String) : Bool :=
  contentType != "" &&
    (strIncludes contentType "json" || strStartsWith contentType "application/javascript")

/-- Embedding of `ApiBase.getContentTypeAndCharset` (src/unnamed/part_002 lines
427-434): split the truthy content type on `;`, return the trimmed mime
type and the trimmed second part when present. -/
def getContentTypeAndCharset (h : HeadersAll) : String × Option String :=
  match getContentType h with
  | some contentType =>
      if contentType != "" then
        let parts := splitChar ';' contentType
        (strTrim (parts.headD ""),
          if parts.length > 1 then some (strTrim (parts.getD 1 "")) else none)
      else ("", none)
  | none => ("", none)

/-- Embedding of `ApiBase.setContentType` (src/unnamed/part_002 lines 525-535): a
truthy type without a `charset=` part gets `; charset=<client charset>`
appended, then the value is written (a falsy value therefore removes the
`Content-Type` header). -/
def setContentType (charset : String) (contentType : Option String) (h : HeadersAll) : HeadersAll :=
  let value : Option String :=
    match contentType with
    | some v => if v != "" && !(strIncludes v "charset=") then some (v ++ "; charset=" ++ charset) else some v
    | none => none
  setHeaderValue "Content-Type" value h

theorem hdrFind_hdrSet (k0 v : String) (hk : lowerStr k0 = k0) :
    ∀ l : List (String × String), hdrFind k0 (hdrSet k0 v l) = some v := by
  intro l
  induction l with
  | nil => simp [hdrSet, hdrFind, hk]
  | cons e rest ih =>
      by_cases h : lowerStr e.1 = k0
      · simp [hdrSet, hdrFind, h]
      · simp only [hdrSet, hdrFind, beq_iff_eq, h]
        simpa [h] using ih

theorem hdrSet_length (k0 v : String) :
    ∀ l : List (String × String), (∃ e ∈ l, lowerStr e.1 = k0) →
      (hdrSet k0 v l).length = l.length := by
  intro l
  induction l with
  | nil => rintro ⟨e, he, _⟩; cases he
  | cons e rest ih =>
      rintro ⟨f, hf, hfk⟩
      by_cases h : lowerStr e.1 = k0
      · simp [hdrSet, h]
      · rcases List.mem_cons.mp hf with rfl | hf'
        · exact absurd hfk h
        · simp only [hdrSet, beq_iff_eq, h, if_false, List.length_cons]
          rw [ih ⟨f, hf', hfk⟩]

theorem getHeaderValue_setHeaderValue_pairs (k k' v : String) (hv : v ≠ "")
    (hk : lowerStr k' = lowerStr k) (l : List (String × String)) :
    getHeaderValue (setHeaderValue k (some v) (.pairs l)) k' = some v := by
  have htru : strTruthy (some v) = true := by simpa [strTruthy] using hv
  simpa [setHeaderValue, getHeaderValue, htru, hk] using
    hdrFind_hdrSet (lowerStr k) v (lowerStr_idem k) l

theorem getHeaderValue_setHeaderValue_dict (k k' v : String) (hv : v ≠ "")
    (hk : lowerStr k' = lowerStr k) (l : List (String × String)) :
    getHeaderValue (setHeaderValue k (some v) (.dict l)) k' = some v := by
  have htru : strTruthy (some v) = true := by simpa [strTruthy] using hv
  simpa [setHeaderValue, getHeaderValue, htru, hk] using
    hdrFind_hdrSet (lowerStr k) v (lowerStr_idem k) l

theorem headerCount_setHeaderValue_pairs (k v : String) (hv : v ≠ "")
    (l : List (String × String)) (hmem : ∃ e ∈ l, lowerStr e.1 = lowerStr k) :
    headerCount (setHeaderValue k (some v) (.pairs l)) = l.length := by
  have htru : strTruthy (some v) = true := by simpa [strTruthy] using hv
  simpa [setHeaderValue, headerCount, HeadersAll.entries, htru] using
    hdrSet_length (lowerStr k) v l hmem

theorem headerCount_setHeaderValue_dict (k v : String) (hv : v ≠ "")
    (l : List (String × String)) (hmem : ∃ e ∈ l, lowerStr e.1 = lowerStr k) :
    headerCount (setHeaderValue k (some v) (.dict l)) = l.length := by
  have htru : strTruthy (some v) = true := by simpa [strTruthy] using hv
  simpa [setHeaderValue, headerCount, HeadersAll.entries, htru] using
    hdrSet_length (lowerStr k) v l hmem

/-- C2 (code bug): the claimed set-then-get round trip and the overwrite
count preservation hold for the ordered pair list and for the plain
dictionary, but a write to a native `Headers` container is silently
dropped: native containers are iterable, so the
`isIterable(headers) || Array.isArray(headers)` branch of
`setHeaderValue` (src/unnamed/part_002 lines 554-567) mutates only the
`Array.from` copy and returns, the `instanceof Headers` branch being
unreachable.  Getting the key back therefore yields the old value for an
existing key and nothing for a fresh key, contrary to the claim and to
the comment in the source asserting the copy can never happen and the
write is effective. -/
theorem setHeaderValue_native_write_dropped :
    (getHeaderValue
        (setHeaderValue "Content-Type" (some "application/json")
          (.native [("content-type", "text/html")])) "CONTENT-TYPE" =
        some "text/html" ∧
      getHeaderValue
        (setHeaderValue "Authorization" (some "Bearer token")
          (.native [])) "authorization" = none) ∧
    (getHeaderValue
        (setHeaderValue "Content-Type" (some "application/json")
          (.pairs [("CONTENT-type", "text/html"), ("Accept", "a")])) "CONTENT-TYPE" =
        some "application/json" ∧
      headerCount
        (setHeaderValue "Content-Type" (some "application/json")
          (.pairs [("CONTENT-type", "text/html"), ("Accept", "a")])) = 2) ∧
    (getHeaderValue
        (setHeaderValue "Content-Type" (some "application/json")
          (.dict [("CONTENT-type", "text/html"), ("Accept", "a")])) "CONTENT-TYPE" =
        some "application/json" ∧
      headerCount
        (setHeaderValue "Content-Type" (some "application/json")
          (.dict [("CONTENT-type", "text/html"), ("Accept", "a")])) = 2) := by
  exact ⟨⟨rfl, rfl⟩, ⟨rfl, rfl⟩, ⟨rfl, rfl⟩⟩

/-- C9 counterexample: a headers container whose `content-length` value
`"abc"` has no parsable integer makes `getContentLength` return the
number `NaN`, not `undefined` as claimed. -/
theorem getContentLength_unparsable_not_undefined :
    getContentLength (.dict [("content-length", "abc")]) = some JSNumber.nan ∧
    getContentLength (.dict [("content-length", "abc")]) ≠ none := by
  constructor
  · rfl
  · decide

/-- C9 (amended): `getContentLength` is `undefined` exactly when the
`content-length` header is absent or empty; for any present non-empty
value it returns the JavaScript `parseInt` of that value, which is `NaN`
(a number, not `undefined`) when the value has no parsable leading
integer. -/
theorem getContentLength_spec (h : HeadersAll) :
    (getContentLength h = none ↔
      (getHeaderValue h "content-length" = none ∨
        getHeaderValue h "content-length" = some "")) ∧
    (∀ s : String, getHeaderValue h "content-length" = some s → s ≠ "" →
      getContentLength h = some (jsParseInt s)) := by
  constructor
  · constructor
    · intro hnone
      unfold getContentLength at hnone
      cases hcl : getHeaderValue h "content-length" with
      | none => exact Or.inl rfl
      | some s =>
          rw [hcl] at hnone
          by_cases hs : s = ""
          · exact Or.inr (congrArg some hs)
          · simp [hs] at hnone
    · rintro (hcl | hcl) <;> simp [getContentLength, hcl]
  · intro s hcl hs
    simp [getContentLength, hcl, hs]

/-- Witness for C9 (amended) at a concrete container with
`content-length: 1769`. -/
theorem getContentLength_spec_witness :
    getHeaderValue (.native [("content-length", "1769")]) "content-length" = some "1769" ∧
    ("1769" : String) ≠ "" ∧
    getContentLength (.native [("content-length", "1769")]) = some (jsParseInt "1769") ∧
    jsParseInt "1769" = JSNumber.num 1769 := by
  refine ⟨by decide, by decide, ?_, by decide⟩
  exact (getContentLength_spec (.native [("content-length", "1769")])).2 "1769" (by decide) (by decide)

/-- Fields spread by `{...x}` when `x` came from an object property read:
an object contributes its fields, anything else (absent key, `null`,
scalars) contributes nothing. -/
def spreadFields : Option JsValue → List (String × JsValue)
  | some (.obj o) => o
  | _ => []

/-- One iteration of `ApiBase.mergeConfig` (src/unnamed/part_002 lines
379-402) for default-configuration entry `e`: a `null` default is
skipped; an object default is copied, shallow-merged with the override
value when that is also an object, and written back; a scalar default is
written only when the override does not already define the key. -/
def mergeStep (acc : List (String × JsValue)) (e : String × JsValue) :
    List (String × JsValue) :=
  match e.2 with
  | .null => acc
  | .obj o => objSet acc e.1 (.obj (objSpread o (spreadFields (objGet acc e.1))))
  | dv => if objHasKey acc e.1 then acc else objSet acc e.1 dv

/-- Embedding of `ApiBase.mergeConfig`: fold the steps over the default
configuration entries in key order, mutating the override. -/
def mergeConfig (defCfg cfg : List (String × JsValue)) : List (String × JsValue) :=
  defCfg.foldl mergeStep cfg

/-- Scalar (non-null, non-object) JavaScript values. -/
def isScalarValue : JsValue → Bool
  | .bool _ => true
  | .num _ => true
  | .str _ => true
  | _ => false

theorem objGet_objSet_self (k : String) (v : JsValue) :
    ∀ o, objGet (objSet o k v) k = some v := by
  intro o
  induction o with
  | nil => simp [objSet, objGet]
  | cons e rest ih =>
      by_cases h : e.1 = k
      · simp [objSet, objGet, h]
      · simp only [objSet, beq_iff_eq, h, if_false]
        simpa [objGet, h] using ih

theorem objGet_objSet_ne (k k' : String) (v : JsValue) (h : k' ≠ k) :
    ∀ o, objGet (objSet o k v) k' = objGet o k' := by
  intro o
  induction o with
  | nil => simp [objSet, objGet, Ne.symm h]
  | cons e rest ih =>
      by_cases he : e.1 = k
      · subst he
        simp [objSet, objGet, Ne.symm h]
      · simp only [objSet, beq_iff_eq, he, if_false]
        by_cases he' : e.1 = k'
        · simp [objGet, he']
        · simpa [objGet, he'] using ih

theorem objHasKey_objSet_ne (k k' : String) (v : JsValue) (h : k' ≠ k) :
    ∀ o, objHasKey (objSet o k v) k' = objHasKey o k' := by
  intro o
  induction o with
  | nil => simp [objSet, objHasKey, Ne.symm h]
  | cons e rest ih =>
      by_cases he : e.1 = k
      · simp [objSet, objHasKey, he]
      · simp only [objSet, beq_iff_eq, he, if_false]
        simp only [objHasKey, List.any_cons] at ih ⊢
        rw [ih]

theorem mergeStep_objGet_ne (acc : List (String × JsValue)) (e : String × JsValue)
    (k : String) (h : k ≠ e.1) : objGet (mergeStep acc e) k = objGet acc k := by
  cases e2 : e.2 <;> simp [mergeStep, e2, objGet_objSet_ne _ _ _ h]
  · split <;> simp [objGet_objSet_ne _ _ _ h]
  · split <;> simp [objGet_objSet_ne _ _ _ h]
  · split <;> simp [objGet_objSet_ne _ _ _ h]

theorem mergeStep_objHasKey_ne (acc : List (String × JsValue)) (e : String × JsValue)
    (k : String) (h : k ≠ e.1) : objHasKey (mergeStep acc e) k = objHasKey acc k := by
  cases e2 : e.2 <;> simp [mergeStep, e2, objHasKey_objSet_ne _ _ _ h]
  · split <;> simp [objHasKey_objSet_ne _ _ _ h]
  · split <;> simp [objHasKey_objSet_ne _ _ _ h]
  · split <;> simp [objHasKey_objSet_ne _ _ _ h]

theorem mergeConfig_objGet_notin (k : String) :
    ∀ (defCfg : List (String × JsValue)), (∀ e ∈ defCfg, e.1 ≠ k) →
      ∀ cfg, objGet (mergeConfig defCfg cfg) k = objGet cfg k := by
  intro defCfg
  induction defCfg with
  | nil => intro _ cfg; rfl
  | cons e rest ih =>
      intro hk cfg
      have h1 : k ≠ e.1 := fun hh => hk e (by simp) hh.symm
      have : mergeConfig (e :: rest) cfg = mergeConfig rest (mergeStep cfg e) := rfl
      rw [this, ih (fun f hf => hk f (List.mem_cons_of_mem _ hf)) (mergeStep cfg e),
        mergeStep_objGet_ne _ _ _ h1]

theorem mergeConfig_obj (k : String) (o co : List (String × JsValue)) :
    ∀ defCfg : List (String × JsValue), (defCfg.map Prod.fst).Nodup →
      objGet defCfg k = some (.obj o) →
      ∀ cfg, objGet cfg k = some (.obj co) →
        objGet (mergeConfig defCfg cfg) k = some (.obj (objSpread o co)) := by
  intro defCfg
  induction defCfg with
  | nil => intro _ hget; simp [objGet] at hget
  | cons e rest ih =>
      intro hnd hget cfg hcfg
      simp only [List.map_cons, List.nodup_cons] at hnd
      by_cases he : e.1 = k
      · have he2 : e.2 = JsValue.obj o := by
          have := hget
          simp only [objGet, beq_iff_eq, he, if_pos rfl, Option.some.injEq] at this
          simpa [he] using this
        have hstep : objGet (mergeStep cfg e) k = some (.obj (objSpread o co)) := by
          simp [mergeStep, he2, he, hcfg, spreadFields, objGet_objSet_self]
        have hrest : ∀ f ∈ rest, f.1 ≠ k := by
          intro f hf hfk
          exact hnd.1 (by simpa [hfk, he] using List.mem_map_of_mem Prod.fst hf)
        have : mergeConfig (e :: rest) cfg = mergeConfig rest (mergeStep cfg e) := rfl
        rw [this, mergeConfig_objGet_notin k rest hrest _, hstep]
      · have hget' : objGet rest k = some (.obj o) := by simpa [objGet, he] using hget
        have hcfg' : objGet (mergeStep cfg e) k = some (.obj co) := by
          rw [mergeStep_objGet_ne _ _ _ (fun hh => he hh.symm)]
          exact hcfg
        exact ih hnd.2 hget' _ hcfg'

theorem mergeConfig_scalar (k : String) (dv : JsValue) :
    ∀ defCfg : List (String × JsValue), (defCfg.map Prod.fst).Nodup →
      objGet defCfg k = some dv → isScalarValue dv = true →
      ∀ cfg, objHasKey cfg k = false →
        objGet (mergeConfig defCfg cfg) k = some dv := by
  intro defCfg
  induction defCfg with
  | nil => intro _ hget; simp [objGet] at hget
  | cons e rest ih =>
      intro hnd hget hsc cfg hcfg
      simp only [List.map_cons, List.nodup_cons] at hnd
      by_cases he : e.1 = k
      · have he2 : e.2 = dv := by
          have := hget
          simp only [objGet, beq_iff_eq, he, if_pos rfl, Option.some.injEq] at this
          simpa [he] using this
        have hstep : objGet (mergeStep cfg e) k = some dv := by
          cases dv with
          | bool b => simp [mergeStep, he2, he, hcfg, objGet_objSet_self]
          | num n => simp [mergeStep, he2, he, hcfg, objGet_objSet_self]
          | str s => simp [mergeStep, he2, he, hcfg, objGet_objSet_self]
          | null => simp [isScalarValue] at hsc
          | obj _ => simp [isScalarValue] at hsc
        have hrest : ∀ f ∈ rest, f.1 ≠ k := by
          intro f hf hfk
          exact hnd.1 (by simpa [hfk, he] using List.mem_map_of_mem Prod.fst hf)
        have : mergeConfig (e :: rest) cfg = mergeConfig rest (mergeStep cfg e) := rfl
        rw [this, mergeConfig_objGet_notin k rest hrest _, hstep]
      · have hget' : objGet rest k = some dv := by simpa [objGet, he] using hget
        have hcfg' : objHasKey (mergeStep cfg e) k = false := by
          rw [mergeStep_objHasKey_ne _ _ _ (fun hh => he hh.symm)]
          exact hcfg
        exact ih hnd.2 hget' hsc _ hcfg'

/-- C6: `mergeConfig` is a two-level merge of the client default
configuration into the per-call override: a default object value is
shallow-merged under a copy of the default with the override object
value at the same key; a default scalar is copied only when the override
does not define the key; keys absent from the default are untouched. -/
theorem mergeConfig_two_level_merge (defCfg cfg : List (String × JsValue))
    (hnd : (defCfg.map Prod.fst).Nodup) :
    (∀ (k : String) (o co : List (String × JsValue)),
        objGet defCfg k = some (.obj o) → objGet cfg k = some (.obj co) →
        objGet (mergeConfig defCfg cfg) k = some (.obj (objSpread o co))) ∧
    (∀ (k : String) (dv : JsValue),
        objGet defCfg k = some dv → isScalarValue dv = true →
        objHasKey cfg k = false →
        objGet (mergeConfig defCfg cfg) k = some dv) ∧
    (∀ k : String, objHasKey defCfg k = false →
        objGet (mergeConfig defCfg cfg) k = objGet cfg k) := by
  refine ⟨?_, ?_, ?_⟩
  · intro k o co hdef hcfg
    exact mergeConfig_obj k o co defCfg hnd hdef cfg hcfg
  · intro k dv hdef hsc hcfg
    exact mergeConfig_scalar k dv defCfg hnd hdef hsc cfg hcfg
  · intro k hk
    refine mergeConfig_objGet_notin k defCfg ?_ cfg
    intro e he hek
    have : objHasKey defCfg k = true := by
      unfold objHasKey
      exact List.any_eq_true.mpr ⟨e, he, by simpa using hek⟩
    rw [this] at hk
    cases hk

/-- Witness for C6 at concrete configurations: default
`headers={a:1,b:2}, mode="cors"`, override `headers={b:3}`; the merged
override has `headers={a:1,b:3}`, copies the scalar `mode`, and leaves
the default-absent key `extra` untouched. -/
theorem mergeConfig_two_level_merge_witness :
    objGet
        (mergeConfig
          [("headers", .obj [("a", .str "1"), ("b", .str "2")]), ("mode", .str "cors")]
          [("headers", .obj [("b", .str "3")])])
        "headers" = some (.obj [("a", .str "1"), ("b", .str "3")]) ∧
    objGet
        (mergeConfig
          [("headers", .obj [("a", .str "1"), ("b", .str "2")]), ("mode", .str "cors")]
          [("headers", .obj [("b", .str "3")])])
        "mode" = some (.str "cors") ∧
    objGet
        (mergeConfig
          [("headers", .obj [("a", .str "1"), ("b", .str "2")]), ("mode", .str "cors")]
          [("headers", .obj [("b", .str "3")])])
        "extra" = none := by
  have h := mergeConfig_two_level_merge
    [("headers", .obj [("a", .str "1"), ("b", .str "2")]), ("mode", .str "cors")]
    [("headers", .obj [("b", .str "3")])] (by decide)
  refine ⟨?_, ?_, ?_⟩
  · exact h.1 "headers" [("a", .str "1"), ("b", .str "2")] [("b", .str "3")] rfl rfl
  · exact h.2.1 "mode" (.str "cors") rfl rfl rfl
  · rw [h.2.2 "extra" rfl]; rfl

/-- The seven verbs (`ApiMethod` of src/src/IApi.ts). -/
inductive ApiMethod where
  | DELETE | GET | HEAD | OPTIONS | PATCH | POST | PUT
  deriving DecidableEq

/-- Response shapes (`ApiResponseType` of src/src/IApi.ts). -/
inductive ApiResponseType where
  | ArrayBuffer | Blob | Document | Json | Stream | Text
  deriving DecidableEq

/-- The request payload union (`ApiRequestData` of src/src/IApi.ts), as a
closed tagged union: boxed strings, multipart form containers, plain
data objects (`constructor === Object`), file lists, binary views,
query containers, and any other object payload (Blob, File, streams,
raw buffers), which the formatter passes through unchanged. -/
inductive ApiRequestData where
  | strObj (s : String)
  | formData (entries : List (String × String))
  | plainObject (fields : List (String × JsValue))
  | fileList (names : List String)
  | bufferView (bytes : List Nat)
  | urlParams (entries : List (String × String))
  | otherData

/-- Embedding of `Utils.isSimpleType` restricted to modelled values: everything but
objects is simple. -/
def isSimpleJsValue : JsValue → Bool
  | .obj _ => false
  | _ => true

/-- Helper for the replace-first-then-drop-duplicates write of
`URLSearchParams.set`. -/
def psRemoveExtra (k : String) (l : List (String × String)) : List (String × String) :=
  l.filter (fun e => e.1 != k)

/-- Model of `URLSearchParams.set`: replace the value of the first entry with the
name, remove any later entries with the name, append when absent. -/
def psSet (k v : String) : List (String × String) → List (String × String)
  | [] => [(k, v)]
  | e :: rest => if e.1 == k then (k, v) :: psRemoveExtra k rest else e :: psSet k v rest

/-- Embedding of `Utils.mergeURLSearchParams` (src/src/Utils.ts lines 49-58): every
non-null field of the simple object is written with
`base.set(key, value.toString())`. -/
def mergeURLSearchParams (base : List (String × String))
    (data : List (String × JsValue)) : List (String × String) :=
  data.foldl
    (fun acc e =>
      match e.2 with
      | .null => acc
      | v => psSet e.1 (jsToString v) acc)
    base

/-- Model of `URLSearchParams.toString`, with percent-encoding omitted (no claim
inspects encoded characters). -/
def paramsToString (l : List (String × String)) : String :=
  String.intercalate "&" (l.map (fun e => e.1 ++ "=" ++ e.2))

/-- Model of `String.prototype.addUrlParams` of @etsoo/shared, from the
in-repo implementation it replaced (src/src/ApiBase.ts lines 616-622):
append the query string with `?`, or with `&` when the url already
contains `?`. -/
def addUrlParams (url params : String) : String :=
  if strIncludes url "?" then url ++ "&" ++ params else url ++ "?" ++ params

/-- Embedding of `ApiBase.buildUrl` (src/unnamed/part_002 lines 247-249): prepend the
base url unless the url is already absolute or no base url is set. -/
def buildUrl (baseUrl : Option String) (url : String) : String :=
  if !(strIncludes url "://") && strTruthy baseUrl then (baseUrl.getD "") ++ url else url

/-- Embedding of `ApiParams` of src/src/IApi.ts: a query container or a simple
object. -/
inductive ApiParams where
  | search (entries : List (String × String))
  | simple (fields : List (String × JsValue))

/-- Embedding of `ApiBase.transformParams` (src/unnamed/part_002 lines 748-757). -/
def transformParams : Option ApiParams → List (String × String)
  | none => []
  | some (.search l) => l
  | some (.simple o) => mergeURLSearchParams [] o

/-- JSON string escaping for `JSON.stringify` (quotes and backslashes;
no claim inspects other escapes). -/
def jsonEscape (s : String) : String :=
  s.data.foldl
    (fun acc c =>
      acc ++ (if c = '"' then "\\\"" else if c = '\\' then "\\\\" else String.singleton c))
    ""

mutual

/-- Model of `JSON.stringify` on modelled values. -/
def jsonStr : JsValue → String
  | .null => "null"
  | .bool b => if b then "true" else "false"
  | .num n => toString n
  | .str s => "\"" ++ jsonEscape s ++ "\""
  | .obj fields => "\x7b" ++ jsonStrFields fields ++ "\x7d"

def jsonStrFields : List (String × JsValue) → String
  | [] => ""
  | [e] => "\"" ++ jsonEscape e.1 ++ "\":" ++ jsonStr e.2
  | e :: rest => "\"" ++ jsonEscape e.1 ++ "\":" ++ jsonStr e.2 ++ "," ++ jsonStrFields rest

end

/-- Model of `JSON.stringify(data)` for the payload union: a plain object
serializes its fields, a typed array serializes as an index-keyed
object, the exotic container types have no own enumerable properties. -/
def jsonStringify : ApiRequestData → String
  | .plainObject o => jsonStr (.obj o)
  | .strObj s => jsonStr (.str s)
  | .bufferView bytes =>
      jsonStr (.obj (bytes.enum.map (fun p => (toString p.1, JsValue.num (p.2 : Int)))))
  | _ => "\x7b\x7d"

/-- The `jsonContentType` getter of `ApiBase`. -/
def jsonContentType : String := "application/json"

/-- Evaluation of `a || b` on `string | null | undefined` values. -/
def jsStrOr (a b : Option String) : Option String :=
  if strTruthy a then a else b

/-- Formatted wire bodies: a serialized string, a multipart form, an
underlying buffer, or the payload passed through unchanged. -/
inductive BodyValue where
  | str (s : String)
  | form (entries : List (String × String))
  | buffer (bytes : List Nat)
  | raw (d : ApiRequestData)

/-- Result of `formatData`: the `[any, Error?]` pair together with the
headers and query parameters it mutated. -/
structure FormatResult where
  body : Option BodyValue
  error : Option String
  headers : HeadersAll
  params : List (String × String)

/-- Body-bearing verbs. -/
def isBodyMethod (m : ApiMethod) : Bool :=
  m == .PATCH || m == .POST || m == .PUT

/-- Embedding of `ApiBase.formatData` (src/unnamed/part_002 lines 284-373).  For
body-bearing verbs: boxed strings get a guessed content type and pass
through; form containers pass through; plain objects or JSON-like
content types serialize to JSON; otherwise a falsy content type is
written back (removing the header), file lists become multipart forms
under the field name `files`, binary views contribute their buffer, and
anything else passes through.  For the other verbs: a non-empty query
set is a formatting error; a query container merges entry-wise into the
query set; a simple object merges its non-null fields; any other
payload is a type error. -/
def formatData (charset : String) (method : ApiMethod) (headers : HeadersAll)
    (params : List (String × String)) (data : Option ApiRequestData)
    (contentType : Option String) : FormatResult :=
  match data with
  | none => ⟨none, none, headers, params⟩
  | some d =>
      if isBodyMethod method then
        let lct := jsStrOr contentType (getContentType headers)
        match d with
        | .strObj s =>
            let lct1 :=
              if strStartsWith s "\x7b" && strEndsWith s "\x7d" then
                (if strTruthy lct then lct else some jsonContentType)
              else if strStartsWith s "<" && strEndsWith s ">" then
                (if strTruthy lct then lct else some "application/xml")
              else lct
            ⟨some (.raw d), none, setContentType charset lct1 headers, params⟩
        | .formData _ => ⟨some (.raw d), none, headers, params⟩
        | dd =>
            if (match dd with | .plainObject _ => true | _ => false) ||
                (strTruthy lct && isJSONContentType (lct.getD "")) then
              let lct2 := if strTruthy lct then lct else some jsonContentType
              ⟨some (.str (jsonStringify dd)), none, setContentType charset lct2 headers, params⟩
            else
              let headers1 :=
                if !(strTruthy lct) then setContentType charset lct headers else headers
              match dd with
              | .fileList names =>
                  ⟨some (.form (names.map (fun n => ("files", n)))), none, headers1, params⟩
              | .bufferView bytes => ⟨some (.buffer bytes), none, headers1, params⟩
              | _ => ⟨some (.raw dd), none, headers1, params⟩
      else
        if params.length > 0 then
          ⟨none, some "URL params shoud be avoided to pass with data", headers, params⟩
        else
          match d with
          | .urlParams ps =>
              ⟨none, none, headers, ps.foldl (fun acc e => psSet e.1 e.2 acc) params⟩
          | .plainObject fields =>
              if fields.all (fun e => isSimpleJsValue e.2) then
                ⟨none, none, headers, mergeURLSearchParams params fields⟩
              else
                ⟨none, some "Data transforms to params with wrong data type", headers, params⟩
          | _ => ⟨none, some "Data transforms to params with wrong data type", headers, params⟩

/-- Embedding of `IApiResponse` of src/src/IApi.ts: the unified response view. -/
structure IApiResponse where
  headers : HeadersAll
  ok : Bool
  status : Int
  statusText : String

/-- Values produced by a `responseData` of the transport decoder: a JSON-like
value (also covering plain text strings and the empty sentinel), or one
of the opaque shapes (blob, array buffer, parsed document, byte
stream). -/
inductive RawResult where
  | value (v : JsValue)
  | blobValue (content : String)
  | bufferValue (content : String)
  | docValue (content : String)
  | streamValue (content : String)

/-- Embedding of `ApiError` of src/unnamed/part_005: an error message together with
the HTTP status code. -/
structure ApiError where
  message : String
  status : Int
  deriving DecidableEq

/-- Embedding of `isResponseErrorData` (src/src/IApi.ts lines 182-189): a non-null
object with BOTH a `title` and a `message` key. -/
def isResponseErrorData : RawResult → Bool
  | .value (.obj o) => objHasKey o "title" && objHasKey o "message"
  | _ => false

/-- Embedding of `ApiBase.responseErrorMessage` (src/unnamed/part_002 lines 642-645):
`data.message || data.title` for problem-details-like data, `undefined`
otherwise. -/
def responseErrorMessage (data : RawResult) : Option JsValue :=
  if isResponseErrorData data then
    match data with
    | .value (.obj o) =>
        some (jsOr ((objGet o "message").getD .null) ((objGet o "title").getD .null))
    | _ => none
  else none

/-- The settled transport promise: resolved with a response, or rejected
with the message of the exception. -/
inductive TransportOutcome (R : Type) where
  | resolve (response : R)
  | reject (message : String)

/-- The abstract transport operations of `ApiBase` (`createResponse`,
`transformResponse`, `responseData`), implemented by the adapters. -/
structure Transport (R : Type) where
  createResponse : ApiMethod → String → HeadersAll → Option BodyValue →
    Option ApiResponseType → List (String × JsValue) → TransportOutcome R
  transformResponse : R → IApiResponse
  responseData : R → Option ApiResponseType → Option (List String) →
    Option RawResult → Except String RawResult

/-- The `{response?, error?}` pair resolved by
`responsePromiseHandler`. -/
structure PromiseResult (R : Type) where
  response : Option R := none
  error : Option ApiError := none

/-- Embedding of `ApiBase.responsePromiseHandler` (src/unnamed/part_002 lines
647-691): a rejection becomes a network error with status `-1` and the
message of the exception (or `Network Error`); a resolved response with
`ok=true` passes through; otherwise the body is decoded as JSON to
extract `message || title` (decoding failures are swallowed), and the
error message is `errorMessage || statusText || "Unkown"` with the real
status. -/
def responsePromiseHandler {R : Type} (t : Transport R) :
    TransportOutcome R → PromiseResult R
  | .reject msg => ⟨none, some ⟨if msg == "" then "Network Error" else msg, -1⟩⟩
  | .resolve response =>
      let u := t.transformResponse response
      if u.ok then ⟨some response, none⟩
      else
        let errorMessage : Option JsValue :=
          match t.responseData response (some .Json) none none with
          | .ok d => responseErrorMessage d
          | .error _ => none
        let em := errorMessage.getD .null
        let message :=
          if jsTruthy em then jsToString em
          else if u.statusText != "" then u.statusText else "Unkown"
        ⟨some response, some ⟨message, u.status⟩⟩

/-- Embedding of `IApiData` of src/src/IApi.ts: the per-call record handed to the
callbacks and wrapped into errors. -/
structure ApiDataM where
  data : Option BodyValue
  depth : Option Nat
  headers : HeadersAll
  method : ApiMethod
  params : List (String × String)
  responseType : Option ApiResponseType
  showLoading : Option Bool
  url : String

/-- A JavaScript `Error` (`status` is present exactly for `ApiError`). -/
structure ErrorInfo where
  message : String
  status : Option Int := none

/-- Embedding of `ApiDataError` of src/unnamed/part_003: the wrapper carrying the
message of the triggering error, the call record, the response when one
exists, and the source error. -/
structure ApiDataError (R : Type) where
  message : String
  data : ApiDataM
  response : Option R
  source : ErrorInfo

/-- Outcome of one `handleError` run: the cached wrapper and whether it
was thrown, plus which of the two handler tiers ran. -/
structure HandleErrorResult (R : Type) where
  dataError : ApiDataError R
  thrown : Bool
  localCalled : Bool
  globalCalled : Bool

/-- Embedding of `ApiBase.handleError` (src/unnamed/part_002 lines 715-742): wrap and
cache the error; with no handler at all, throw it; a per-call handler
runs first and stops everything by returning `false`; otherwise the
global handler runs when registered.  The return value of the global handler is ignored, so its registration is modelled as a flag. -/
def handleError {R : Type} (hasOnError : Bool)
    (localDoError : Option (ApiDataError R → Option Bool))
    (error : ErrorInfo) (data : ApiDataM) (response : Option R) :
    HandleErrorResult R :=
  let dataError : ApiDataError R := ⟨error.message, data, response, error⟩
  match localDoError with
  | none =>
      if hasOnError then ⟨dataError, false, false, true⟩
      else ⟨dataError, true, false, false⟩
  | some f =>
      if f dataError == some false then ⟨dataError, false, true, false⟩
      else ⟨dataError, false, true, hasOnError⟩

/-- Per-call configuration (`IApiConfig`): the `headers` entry is
modelled as a typed field in the plain-dictionary representation (the
shape produced by the `const { headers = {} } = config` destructuring
and by every caller in this code base), the remaining entries as a JS
object. -/
structure CallConfig where
  headers : Option (List (String × String)) := none
  rest : List (String × JsValue) := []

/-- Exact-key replace-or-append on a string dictionary (property
write). -/
def dictAssign : List (String × String) → String → String → List (String × String)
  | [], k, v => [(k, v)]
  | e :: rest, k, v => if e.1 == k then (e.1, v) :: rest else e :: dictAssign rest k v

/-- Spread `\x7b...a, ...b\x7d` on string dictionaries. -/
def strSpread (a b : List (String × String)) : List (String × String) :=
  b.foldl (fun acc e => dictAssign acc e.1 e.2) a

/-- The `this.mergeConfig(config)` call of `request`, split over the
typed configuration: the `headers` key follows the object branch of `mergeConfig` (`{...default, ...override}`), the remaining keys follow
`mergeConfig` itself. -/
def mergeCallConfig : Option CallConfig → CallConfig → CallConfig
  | none, cfg => cfg
  | some dc, cfg =>
      { headers :=
          match dc.headers with
          | none => cfg.headers
          | some dh => some (strSpread dh (cfg.headers.getD []))
        rest := mergeConfig dc.rest cfg.rest }

/-- Embedding of `IApiPayload` of src/src/IApi.ts.  The per-call error handler is the
function invoked first by `handleError`; `isLocal` is the `local` flag of the payload. -/
structure PayloadM (R : Type) where
  contentType : Option String := none
  config : Option CallConfig := none
  dateFields : Option (List String) := none
  defaultValue : Option RawResult := none
  onError : Option (ApiDataError R → Option Bool) := none
  params : Option ApiParams := none
  parser : Option (RawResult → Option ErrorInfo × Option RawResult) := none
  responseType : Option ApiResponseType := none
  showLoading : Option Bool := none
  isLocal : Option Bool := none

/-- The client-instance state and handler registrations of `ApiBase`.
The observer callbacks (`onRequest`, `onComplete`, `onResponse`) return
nothing, so only their registration matters; the global error handler
return value is likewise ignored. -/
structure ClientM (R : Type) where
  baseUrl : Option String := none
  charset : String := "utf-8"
  config : Option CallConfig := none
  defaultResponseType : Option ApiResponseType := none
  lastErrorPrivate : Option (ApiDataError R) := none
  hasOnError : Bool := false
  hasOnRequest : Bool := false
  hasOnComplete : Bool := false
  hasOnResponse : Bool := false

/-- Trace of observable invocations made during one `request` call: the
request/complete/response observer callbacks, `createResponse` of the transport, and `handleError`. -/
inductive Event where
  | requestEvent | transportEvent | completeEvent | responseEvent | errorEvent
  deriving DecidableEq

/-- Result of one `request` call: the returned value (`none` is
`undefined`, also when the call threw), whether the call threw, the
last-error slot of the client after the call, the response stored into the
payload, and the invocation trace. -/
structure RequestOutcome (R : Type) where
  result : Option RawResult
  thrown : Bool
  lastError : Option (ApiDataError R)
  payloadResponse : Option R
  events : List Event

/-- Test `rawResult == null || rawResult === ''`. -/
def isEmptyResult : RawResult → Bool
  | .value .null => true
  | .value (.str s) => s == ""
  | _ => false

/-- JS truthiness of a decoded result (`if (parseResult)`). -/
def rawTruthy : RawResult → Bool
  | .value v => jsTruthy v
  | _ => true

/-- Embedding of `ApiBase.request` (src/unnamed/part_002 lines 766-902): reset the
last error, merge configuration, transform parameters, format the body;
on a format error handle it at depth 0 and return undefined with no
network call; otherwise notify `onRequest`, build the url, run the
transport through `responsePromiseHandler`, notify `onComplete`
unconditionally, handle transport errors at depth 1; otherwise store the
response into the payload, notify `onResponse`, decode; an empty decode
returns the default value, a parser error is handled at depth 2, a
decode exception at depth 3. -/
def request {R : Type} (t : Transport R) (c : ClientM R) (method : ApiMethod)
    (url : String) (data : Option ApiRequestData) (payload : Option (PayloadM R)) :
    RequestOutcome R :=
  let p := payload.getD {}
  let responseType := p.responseType.orElse (fun _ => c.defaultResponseType)
  let config := mergeCallConfig c.config (p.config.getD {})
  let headers : HeadersAll := .dict (config.headers.getD [])
  let localParams := transformParams p.params
  let fr := formatData c.charset method headers localParams data p.contentType
  let parameters := paramsToString fr.params
  let localUrl := if parameters != "" then addUrlParams url parameters else url
  let apiData : ApiDataM :=
    ⟨fr.body, none, fr.headers, method, fr.params, responseType, p.showLoading, localUrl⟩
  match fr.error with
  | some msg =>
      let h := handleError c.hasOnError p.onError ⟨msg, none⟩
        { apiData with depth := some 0 } none
      ⟨none, h.thrown, some h.dataError, none, [.errorEvent]⟩
  | none =>
      let ev1 : List Event := if c.hasOnRequest then [.requestEvent] else []
      let api := if p.isLocal.getD false then localUrl else buildUrl c.baseUrl localUrl
      let pr := responsePromiseHandler t
        (t.createResponse method api fr.headers fr.body responseType config.rest)
      let ev2 := ev1 ++ [.transportEvent] ++ (if c.hasOnComplete then [.completeEvent] else [])
      match pr.error, pr.response with
      | some e, resp =>
          let h := handleError c.hasOnError p.onError ⟨e.message, some e.status⟩
            { apiData with depth := some 1 } resp
          ⟨none, h.thrown, some h.dataError, none, ev2 ++ [.errorEvent]⟩
      | none, none =>
          let h := handleError c.hasOnError p.onError ⟨"No Response Error", none⟩
            { apiData with depth := some 1 } none
          ⟨none, h.thrown, some h.dataError, none, ev2 ++ [.errorEvent]⟩
      | none, some response =>
          let pres := if payload.isSome then some response else none
          let ev3 := ev2 ++ (if c.hasOnResponse then [.responseEvent] else [])
          match t.responseData response responseType p.dateFields p.defaultValue with
          | .error ex =>
              let h := handleError c.hasOnError p.onError ⟨ex, none⟩
                { apiData with depth := some 3 } (some response)
              ⟨none, h.thrown, some h.dataError, pres, ev3 ++ [.errorEvent]⟩
          | .ok rawResult =>
              if isEmptyResult rawResult then
                ⟨p.defaultValue, false, none, pres, ev3⟩
              else
                match p.parser with
                | some parser =>
                    match parser rawResult with
                    | (some parseError, _) =>
                        let h := handleError c.hasOnError p.onError parseError
                          { apiData with depth := some 2 } (some response)
                        ⟨none, h.thrown, some h.dataError, pres, ev3 ++ [.errorEvent]⟩
                    | (none, some parseResult) =>
                        if rawTruthy parseResult then ⟨some parseResult, false, none, pres, ev3⟩
                        else ⟨p.defaultValue, false, none, pres, ev3⟩
                    | (none, none) => ⟨p.defaultValue, false, none, pres, ev3⟩
                | none => ⟨some rawResult, false, none, pres, ev3⟩

theorem handleError_thrown_eq {R : Type} (g : Bool)
    (lH : Option (ApiDataError R → Option Bool)) (e : ErrorInfo) (d : ApiDataM)
    (r : Option R) : (handleError g lH e d r).thrown = (!g && lH.isNone) := by
  cases lH with
  | none => cases g <;> rfl
  | some f => simp only [handleError]; split <;> simp

theorem handleError_dataError_eq {R : Type} (g : Bool)
    (lH : Option (ApiDataError R → Option Bool)) (e : ErrorInfo) (d : ApiDataM)
    (r : Option R) : (handleError g lH e d r).dataError = ⟨e.message, d, r, e⟩ := by
  cases lH with
  | none => cases g <;> rfl
  | some f => simp only [handleError]; split <;> rfl

/-- The transport of the C1 failing input: the response resolves with
`ok=false`, status 500, an empty status text, and a body whose JSON
decoding throws. -/
def unkownTransport : Transport Unit where
  createResponse := fun _ _ _ _ _ _ => .resolve ()
  transformResponse := fun _ => ⟨.dict [], false, 500, ""⟩
  responseData := fun _ _ _ _ => .error "Unexpected end of JSON input"

/-- C1 (code bug): with no extractable body message and no status text,
the classifier falls back to the literal string "Unkown" (a misspelling
in src/unnamed/part_002 line 682), not the "Unknown" the specification
states; the precedence order itself (body message, then status text,
then the generic fallback) is as claimed. -/
theorem responsePromiseHandler_fallback_misspelled :
    responsePromiseHandler unkownTransport (.resolve ()) =
      ⟨some (), some ⟨"Unkown", 500⟩⟩ ∧
    ("Unkown" : String) ≠ "Unknown" := by
  exact ⟨rfl, by decide⟩

/-- The transport of the C3 input as literally claimed: status 404, JSON
body with only a `title` field, empty status text. -/
def titleOnlyTransport : Transport Unit where
  createResponse := fun _ _ _ _ _ _ => .resolve ()
  transformResponse := fun _ => ⟨.dict [], false, 404, ""⟩
  responseData := fun _ _ _ _ => .ok (.value (.obj [("title", .str "Not Found")]))

/-- C3 counterexample: for a 404 response whose JSON body is exactly
`title: "Not Found"` with no `message` key and no status text, the
produced error message is the fallback "Unkown", not "Not Found":
`isResponseErrorData` (src/src/IApi.ts lines 182-189) requires BOTH the
`title` and the `message` key, so no message is extracted from the
body. -/
theorem title_only_body_not_extracted :
    ((request titleOnlyTransport { hasOnError := true } .GET
        "/Customer/CountryList" none (some {})).lastError.map
      (fun e => e.message)) = some "Unkown" ∧
    ("Unkown" : String) ≠ "Not Found" := by
  exact ⟨rfl, by decide⟩

/-- The transport of the amended C3 input: status 404, JSON body with
both a `message` key (empty) and a `title` key `"Not Found"`, empty
status text. -/
def problemDetailsTransport : Transport Unit where
  createResponse := fun _ _ _ _ _ _ => .resolve ()
  transformResponse := fun _ => ⟨.dict [], false, 404, ""⟩
  responseData := fun _ _ _ _ =>
    .ok (.value (.obj [("message", .str ""), ("title", .str "Not Found")]))

/-- C3 (amended): for a 404 response whose JSON body carries both a
`message` and a `title` field (problem-details-like with both keys, the
falsy message deferring to the title) and no status text, the produced
message of the produced error is "Not Found", and the URL of the last-error record of the client
equals the requested path. -/
theorem request_404_problem_details (url : String) :
    ((request problemDetailsTransport { hasOnError := true } .GET url none
        (some {})).lastError.map (fun e => e.message)) = some "Not Found" ∧
    ((request problemDetailsTransport { hasOnError := true } .GET url none
        (some {})).lastError.map (fun e => e.data.url)) = some url := by
  exact ⟨rfl, rfl⟩

theorem request_thrown_of_handlers {R : Type} (t : Transport R) (c : ClientM R)
    (m : ApiMethod) (u : String) (dat : Option ApiRequestData)
    (pl : Option (PayloadM R))
    (hh : c.hasOnError = true ∨ (pl.getD {}).onError ≠ none) :
    (request t c m u dat pl).thrown = false := by
  have hth : ∀ (e : ErrorInfo) (d : ApiDataM) (r : Option R),
      (handleError c.hasOnError (pl.getD {}).onError e d r).thrown = false := by
    intro e d r
    rw [handleError_thrown_eq]
    rcases hh with h | h
    · simp [h]
    · cases hl : (pl.getD {}).onError with
      | none => exact absurd hl h
      | some f => simp
  simp only [request]
  split
  · exact hth _ _ _
  · split
    · exact hth _ _ _
    · exact hth _ _ _
    · split
      · exact hth _ _ _
      · split
        · rfl
        · split
          · split
            · exact hth _ _ _
            · split
              · rfl
              · rfl
            · rfl
          · rfl

theorem errorEvent_not_mem_success_events (b1 b2 b3 : Bool) :
    Event.errorEvent ∉
      (((if b1 then [Event.requestEvent] else ([] : List Event)) ++
          [Event.transportEvent] ++ (if b2 then [Event.completeEvent] else [])) ++
        (if b3 then [Event.responseEvent] else [])) := by
  cases b1 <;> cases b2 <;> cases b3 <;> decide

theorem request_error_event_result_none {R : Type} (t : Transport R) (c : ClientM R)
    (m : ApiMethod) (u : String) (dat : Option ApiRequestData)
    (pl : Option (PayloadM R)) :
    Event.errorEvent ∈ (request t c m u dat pl).events →
      (request t c m u dat pl).result = none := by
  simp only [request]
  split
  · intro _; rfl
  · split
    · intro _; rfl
    · intro _; rfl
    · split
      · intro _; rfl
      · split
        · intro hmem; exact absurd hmem (errorEvent_not_mem_success_events _ _ _)
        · split
          · split
            · intro _; rfl
            · split
              · intro hmem; exact absurd hmem (errorEvent_not_mem_success_events _ _ _)
              · intro hmem; exact absurd hmem (errorEvent_not_mem_success_events _ _ _)
            · intro hmem; exact absurd hmem (errorEvent_not_mem_success_events _ _ _)
          · intro hmem; exact absurd hmem (errorEvent_not_mem_success_events _ _ _)

/-- C5: the two-tier error resolution of `handleError`: with neither a
per-call nor a global handler the wrapped error is thrown; a registered
per-call handler is always invoked and, when it returns exactly `false`,
the global handler is skipped and nothing is thrown; with at least one
handler registered nothing is ever thrown, and every `request` call on
such a client resolves every handled error to the result `undefined`. -/
theorem error_handler_resolution {R : Type} :
    (∀ (g : Bool) (e : ErrorInfo) (d : ApiDataM) (r : Option R),
        g = false →
        (handleError g (none : Option (ApiDataError R → Option Bool)) e d r).thrown = true) ∧
    (∀ (g : Bool) (f : ApiDataError R → Option Bool) (e : ErrorInfo)
        (d : ApiDataM) (r : Option R),
        (handleError g (some f) e d r).localCalled = true ∧
        (f (handleError g (some f) e d r).dataError = some false →
          (handleError g (some f) e d r).globalCalled = false ∧
          (handleError g (some f) e d r).thrown = false)) ∧
    (∀ (g : Bool) (lH : Option (ApiDataError R → Option Bool)) (e : ErrorInfo)
        (d : ApiDataM) (r : Option R),
        (lH ≠ none ∨ g = true) → (handleError g lH e d r).thrown = false) ∧
    (∀ (t : Transport R) (c : ClientM R) (m : ApiMethod) (u : String)
        (dat : Option ApiRequestData) (pl : Option (PayloadM R)),
        (c.hasOnError = true ∨ (pl.getD {}).onError ≠ none) →
          (request t c m u dat pl).thrown = false ∧
          (Event.errorEvent ∈ (request t c m u dat pl).events →
            (request t c m u dat pl).result = none)) := by
  refine ⟨?_, ?_, ?_, ?_⟩
  · intro g e d r hg
    subst hg
    rfl
  · intro g f e d r
    constructor
    · simp only [handleError]; split <;> rfl
    · intro hf
      rw [handleError_dataError_eq] at hf
      simp [handleError, hf]
  · intro g lH e d r hor
    rw [handleError_thrown_eq]
    rcases hor with h | h
    · cases hl : lH with
      | none => exact absurd hl h
      | some f => simp
    · simp [h]
  · intro t c m u dat pl hh
    exact ⟨request_thrown_of_handlers t c m u dat pl hh,
      request_error_event_result_none t c m u dat pl⟩

/-- A sample call record used by witnesses. -/
def sampleApiData : ApiDataM :=
  ⟨none, none, .dict [], .GET, [], none, none, "/x"⟩

/-- Witness for C5 at concrete inputs: with no handler at all the error
is thrown; with a registered global handler a full `request` run does
not throw; a per-call handler returning `false` suppresses the global
handler. -/
theorem error_handler_resolution_witness :
    (handleError false (none : Option (ApiDataError Unit → Option Bool))
        ⟨"boom", none⟩ sampleApiData none).thrown = true ∧
    (request unkownTransport ({ hasOnError := true } : ClientM Unit) .GET "/x"
        none none).thrown = false ∧
    (handleError true (some (fun _ => some false))
        ⟨"boom", none⟩ sampleApiData (none : Option Unit)).globalCalled = false := by
  refine ⟨?_, ?_, ?_⟩
  · exact (error_handler_resolution (R := Unit)).1 false ⟨"boom", none⟩ sampleApiData none rfl
  · exact ((error_handler_resolution (R := Unit)).2.2.2 unkownTransport
      { hasOnError := true } .GET "/x" none none (Or.inl rfl)).1
  · exact (((error_handler_resolution (R := Unit)).2.1 true (fun _ => some false)
      ⟨"boom", none⟩ sampleApiData none).2 rfl).1

theorem formatData_nonbody_params_error (charset : String) (m : ApiMethod)
    (h : HeadersAll) (params : List (String × String)) (d : ApiRequestData)
    (ct : Option String)
    (hm : m = .GET ∨ m = .HEAD ∨ m = .DELETE ∨ m = .OPTIONS)
    (hp : params ≠ []) :
    formatData charset m h params (some d) ct =
      ⟨none, some "URL params shoud be avoided to pass with data", h, params⟩ := by
  have hb : isBodyMethod m = false := by rcases hm with rfl | rfl | rfl | rfl <;> rfl
  have hlen : params.length > 0 := List.length_pos.mpr hp
  simp [formatData, hb, hlen]

/-- C4: a non-body verb call carrying both a data payload and an already
non-empty query-parameter set makes `formatData` fail with the explicit
params-with-data error; `request` then handles the error at depth 0,
returns `undefined`, and never invokes `createResponse` of the transport. -/
theorem nonbody_data_with_params_errors {R : Type} (t : Transport R) (c : ClientM R)
    (m : ApiMethod) (u : String) (d : ApiRequestData) (pl : Option (PayloadM R))
    (hm : m = .GET ∨ m = .HEAD ∨ m = .DELETE ∨ m = .OPTIONS)
    (hp : transformParams (pl.getD {}).params ≠ []) :
    (∀ (h : HeadersAll) (params : List (String × String)) (ct : Option String),
        params ≠ [] →
        (formatData c.charset m h params (some d) ct).error =
          some "URL params shoud be avoided to pass with data") ∧
    (request t c m u (some d) pl).result = none ∧
    Event.transportEvent ∉ (request t c m u (some d) pl).events ∧
    (∃ e, (request t c m u (some d) pl).lastError = some e ∧
      e.data.depth = some 0 ∧
      e.message = "URL params shoud be avoided to pass with data") := by
  refine ⟨?_, ?_, ?_, ?_⟩
  · intro h params ct hpne
    rw [formatData_nonbody_params_error c.charset m h params d ct hm hpne]
  · simp only [request]
    rw [formatData_nonbody_params_error _ _ _ _ _ _ hm hp]
  · simp only [request]
    rw [formatData_nonbody_params_error _ _ _ _ _ _ hm hp]
    show Event.transportEvent ∉ [Event.errorEvent]
    decide
  · simp only [request]
    rw [formatData_nonbody_params_error _ _ _ _ _ _ hm hp]
    refine ⟨_, rfl, ?_, ?_⟩
    · rw [handleError_dataError_eq]
    · rw [handleError_dataError_eq]

/-- Witness for C4: a GET call with an `otherData` payload and one query
parameter in the params of the payload. -/
theorem nonbody_data_with_params_errors_witness :
    ((ApiMethod.GET = ApiMethod.GET ∨ ApiMethod.GET = ApiMethod.HEAD ∨
        ApiMethod.GET = ApiMethod.DELETE ∨ ApiMethod.GET = ApiMethod.OPTIONS) ∧
      transformParams ((some ({ params := some (.search [("id", "2")]) } : PayloadM Unit)).getD {}).params ≠ []) ∧
    (request unkownTransport ({ hasOnError := true } : ClientM Unit) .GET "/x"
        (some .otherData) (some { params := some (.search [("id", "2")]) })).result = none ∧
    Event.transportEvent ∉
      (request unkownTransport ({ hasOnError := true } : ClientM Unit) .GET "/x"
        (some .otherData) (some { params := some (.search [("id", "2")]) })).events := by
  have h := nonbody_data_with_params_errors unkownTransport
    ({ hasOnError := true } : ClientM Unit) .GET "/x" .otherData
    (some { params := some (.search [("id", "2")]) }) (Or.inl rfl) (by decide)
  exact ⟨⟨Or.inl rfl, by decide⟩, h.2.1, h.2.2.1⟩

/-- C10: when `formatData` fails, neither the request-observer callback
nor the completion-observer callback is ever invoked (only error
handling runs); when formatting succeeds the call reaches the transport
and the completion callback is invoked whenever it is registered,
whether the transport succeeded or failed. -/
theorem format_error_skips_callbacks {R : Type} (t : Transport R) (c : ClientM R)
    (m : ApiMethod) (u : String) (dat : Option ApiRequestData)
    (pl : Option (PayloadM R)) :
    ((formatData c.charset m
        (.dict ((mergeCallConfig c.config ((pl.getD {}).config.getD {})).headers.getD []))
        (transformParams (pl.getD {}).params) dat (pl.getD {}).contentType).error ≠ none →
      Event.requestEvent ∉ (request t c m u dat pl).events ∧
      Event.completeEvent ∉ (request t c m u dat pl).events) ∧
    ((formatData c.charset m
        (.dict ((mergeCallConfig c.config ((pl.getD {}).config.getD {})).headers.getD []))
        (transformParams (pl.getD {}).params) dat (pl.getD {}).contentType).error = none →
      c.hasOnComplete = true →
      Event.completeEvent ∈ (request t c m u dat pl).events) := by
  constructor
  · intro hne
    simp only [request]
    split
    · constructor
      · show Event.requestEvent ∉ [Event.errorEvent]
        decide
      · show Event.completeEvent ∉ [Event.errorEvent]
        decide
    · next heq => exact absurd heq hne
  · intro heq0 hc
    simp only [request]
    split
    · next msg heq => rw [heq0] at heq; cases heq
    · split
      · simp [hc]
      · simp [hc]
      · split
        · simp [hc]
        · split
          · simp [hc]
          · split
            · split
              · simp [hc]
              · split
                · simp [hc]
                · simp [hc]
              · simp [hc]
            · simp [hc]

/-- Witness for C10: the format-error side at a GET call carrying data
and params, and the transport-reached side at a plain GET on a client
with a registered completion callback. -/
theorem format_error_skips_callbacks_witness :
    (Event.requestEvent ∉
        (request unkownTransport
          ({ hasOnError := true, hasOnRequest := true, hasOnComplete := true } : ClientM Unit)
          .GET "/x" (some .otherData)
          (some { params := some (.search [("id", "2")]) })).events ∧
      Event.completeEvent ∉
        (request unkownTransport
          ({ hasOnError := true, hasOnRequest := true, hasOnComplete := true } : ClientM Unit)
          .GET "/x" (some .otherData)
          (some { params := some (.search [("id", "2")]) })).events) ∧
    Event.completeEvent ∈
      (request unkownTransport
        ({ hasOnError := true, hasOnComplete := true } : ClientM Unit)
        .GET "/x" none none).events := by
  constructor
  · exact (format_error_skips_callbacks unkownTransport
      { hasOnError := true, hasOnRequest := true, hasOnComplete := true } .GET "/x"
      (some .otherData) (some { params := some (.search [("id", "2")]) })).1
      (by decide)
  · exact (format_error_skips_callbacks unkownTransport
      { hasOnError := true, hasOnComplete := true } .GET "/x" none none).2 rfl rfl

/-- C8: the last-error slot of the client after a `request` call reflects
exactly the outcome of that call: the result of the call does not depend on the
previous content of the slot (the slot is overwritten at the start), the slot
is `undefined` exactly when no pipeline stage failed, it is set even
when the error was thrown rather than swallowed, and any stored error
wraps the record of this very call. -/
theorem lastError_reflects_outcome {R : Type} :
    (∀ (t : Transport R) (c : ClientM R) (m : ApiMethod) (u : String)
        (dat : Option ApiRequestData) (pl : Option (PayloadM R))
        (x : Option (ApiDataError R)),
        request t { c with lastErrorPrivate := x } m u dat pl = request t c m u dat pl) ∧
    (∀ (t : Transport R) (c : ClientM R) (m : ApiMethod) (u : String)
        (dat : Option ApiRequestData) (pl : Option (PayloadM R)),
        ((request t c m u dat pl).lastError = none ↔
          Event.errorEvent ∉ (request t c m u dat pl).events)) ∧
    (∀ (t : Transport R) (c : ClientM R) (m : ApiMethod) (u : String)
        (dat : Option ApiRequestData) (pl : Option (PayloadM R)),
        (request t c m u dat pl).thrown = true →
        (request t c m u dat pl).lastError ≠ none) ∧
    (∀ (t : Transport R) (c : ClientM R) (m : ApiMethod) (u : String)
        (dat : Option ApiRequestData) (pl : Option (PayloadM R))
        (e : ApiDataError R),
        (request t c m u dat pl).lastError = some e → e.data.method = m) := by
  refine ⟨?_, ?_, ?_, ?_⟩
  · intro t c m u dat pl x
    rfl
  · intro t c m u dat pl
    simp only [request]
    split
    · simp
    · split
      · simp
      · simp
      · split
        · simp
        · split
          · exact iff_of_true rfl (errorEvent_not_mem_success_events _ _ _)
          · split
            · split
              · simp
              · split
                · exact iff_of_true rfl (errorEvent_not_mem_success_events _ _ _)
                · exact iff_of_true rfl (errorEvent_not_mem_success_events _ _ _)
              · exact iff_of_true rfl (errorEvent_not_mem_success_events _ _ _)
            · exact iff_of_true rfl (errorEvent_not_mem_success_events _ _ _)
  · intro t c m u dat pl
    simp only [request]
    split
    · intro _; simp
    · split
      · intro _; simp
      · intro _; simp
      · split
        · intro _; simp
        · split
          · intro h; cases h
          · split
            · split
              · intro _; simp
              · split
                · intro h; cases h
                · intro h; cases h
              · intro h; cases h
            · intro h; cases h
  · intro t c m u dat pl e
    simp only [request]
    split
    · intro he
      rw [handleError_dataError_eq] at he
      rw [← Option.some.inj he]
    · split
      · intro he
        rw [handleError_dataError_eq] at he
        rw [← Option.some.inj he]
      · intro he
        rw [handleError_dataError_eq] at he
        rw [← Option.some.inj he]
      · split
        · intro he
          rw [handleError_dataError_eq] at he
          rw [← Option.some.inj he]
        · split
          · intro he; cases he
          · split
            · split
              · intro he
                rw [handleError_dataError_eq] at he
                rw [← Option.some.inj he]
              · split
                · intro he; cases he
                · intro he; cases he
              · intro he; cases he
            · intro he; cases he

/-- A transport whose response succeeds with a plain text body, used by
witnesses of the success path. -/
def okTextTransport : Transport Unit where
  createResponse := fun _ _ _ _ _ _ => .resolve ()
  transformResponse := fun _ => ⟨.dict [], true, 200, "OK"⟩
  responseData := fun _ _ _ _ => .ok (.value (.str "hello"))

/-- Witness for C8 at concrete inputs: a successful call leaves the slot
empty, an erroring call that throws still records the error, and the
recorded error wraps the verb of this call. -/
theorem lastError_reflects_outcome_witness :
    (request okTextTransport ({} : ClientM Unit) .GET "/x" none none).lastError = none ∧
    (request unkownTransport ({} : ClientM Unit) .GET "/x" none none).thrown = true ∧
    (request unkownTransport ({} : ClientM Unit) .GET "/x" none none).lastError ≠ none ∧
    (∀ e, (request unkownTransport ({} : ClientM Unit) .GET "/x" none none).lastError = some e →
      e.data.method = .GET) := by
  refine ⟨?_, rfl, ?_, ?_⟩
  · exact ((lastError_reflects_outcome (R := Unit)).2.1 okTextTransport {} .GET "/x" none none).mpr
      (errorEvent_not_mem_success_events _ _ _)
  · exact (lastError_reflects_outcome (R := Unit)).2.2.1 unkownTransport {} .GET "/x" none none rfl
  · intro e
    exact (lastError_reflects_outcome (R := Unit)).2.2.2 unkownTransport {} .GET "/x" none none e

/-- A raw fetch `Response`: unified status fields, the native headers,
the body as text, and the body stream (`none` models a null body). -/
structure FetchResponse where
  ok : Bool
  status : Int
  statusText : String
  headers : List (String × String)
  bodyText : String
  bodyStream : Option String := none

/-- Embedding of `FetchLikeApi.responseData` (src/src/FetchApi.ts lines 83-137):
status 204 resolves to the empty-string sentinel before anything else;
then blobs (requested or octet-stream content type), array buffers,
documents (the DOM parse is modelled by keeping the text) and streams
are returned in their own shapes; the remaining shapes read the text
body, which is JSON-parsed when the shape or content type is JSON-like
(an empty text short-circuits to the sentinel), and returned as text
otherwise.  `JSON.parse` with the date reviver is the parameter
`jsonParse`; a `.error` result models the exception it throws. -/
def fetchResponseData (jsonParse : String → Except String JsValue)
    (response : FetchResponse) (responseType : Option ApiResponseType) :
    Except String RawResult :=
  if response.status == 204 then .ok (.value (.str ""))
  else
    let ct := (getContentTypeAndCharset (.native response.headers)).1
    if responseType == some .Blob || strStartsWith ct "application/octet-stream" then
      .ok (.blobValue response.bodyText)
    else if responseType == some .ArrayBuffer then .ok (.bufferValue response.bodyText)
    else if responseType == some .Document then .ok (.docValue response.bodyText)
    else if responseType == some .Stream then
      match response.bodyStream with
      | none => .ok (.value .null)
      | some s => .ok (.streamValue s)
    else
      let value := response.bodyText
      if responseType == some .Json || isJSONContentType ct then
        if value == "" then .ok (.value (.str ""))
        else (jsonParse value).map (fun v => .value v)
      else .ok (.value (.str value))

/-- The fetch transport adapter: `createResponse` delegates to the
network function `net`, `transformResponse` passes the own fields of the response through (src/src/FetchApi.ts lines 143-152), and `responseData`
is the fetch decoder, which takes two parameters and therefore ignores
the date fields and default value the orchestrator passes. -/
def fetchTransport
    (net : ApiMethod → String → HeadersAll → Option BodyValue →
      Option ApiResponseType → List (String × JsValue) → TransportOutcome FetchResponse)
    (jsonParse : String → Except String JsValue) : Transport FetchResponse where
  createResponse := net
  transformResponse := fun r => ⟨.native r.headers, r.ok, r.status, r.statusText⟩
  responseData := fun r rt _ _ => fetchResponseData jsonParse r rt

/-- A successful status-200 response with an empty body, no
content-length header, requested as a blob. -/
def emptyBlobResponse : FetchResponse :=
  ⟨true, 200, "OK", [], "", none⟩

/-- A `JSON.parse` stand-in for runs that never parse. -/
def stubParse : String → Except String JsValue :=
  fun _ => .error "unused"

/-- C7 counterexample: a successful call with responseType `Blob` whose
response has status 200 and an empty body decodes to an empty blob, not
to the empty-string sentinel, and `request` returns the blob instead of
the declared default value of the caller. -/
theorem empty_blob_body_not_default :
    fetchResponseData stubParse emptyBlobResponse (some .Blob) = .ok (.blobValue "") ∧
    (request (fetchTransport (fun _ _ _ _ _ _ => .resolve emptyBlobResponse) stubParse)
        ({} : ClientM FetchResponse) .GET "/x" none
        (some { responseType := some .Blob,
                defaultValue := some (.value (.obj [])) })).result =
      some (.blobValue "") ∧
    (RawResult.blobValue "") ≠ (.value (.str "")) ∧
    (some (RawResult.blobValue "") : Option RawResult) ≠ some (.value (.obj [])) := by
  refine ⟨rfl, rfl, fun h => RawResult.noConfusion h, fun h => ?_⟩
  exact RawResult.noConfusion (Option.some.inj h)

/-- C7 (amended): through the fetch adapter, a successful response with
status 204 decodes to the empty-string sentinel whatever the requested
shape, and an empty text body decodes to the sentinel when taken through
the JSON path (requested shape Json, content type not octet-stream); in
both cases `request` returns the declared default value of the caller
(`undefined` when none was supplied) and records no error.  Empty bodies
reaching the binary/document/stream branches are not mapped to the
default value (see the counterexample). -/
theorem fetch_empty_sentinel_maps_to_default
    (net : ApiMethod → String → HeadersAll → Option BodyValue →
      Option ApiResponseType → List (String × JsValue) → TransportOutcome FetchResponse)
    (jsonParse : String → Except String JsValue) (c : ClientM FetchResponse)
    (m : ApiMethod) (u : String) (dat : Option ApiRequestData)
    (pl : Option (PayloadM FetchResponse)) (r : FetchResponse)
    (hfd : (formatData c.charset m
        (.dict ((mergeCallConfig c.config ((pl.getD {}).config.getD {})).headers.getD []))
        (transformParams (pl.getD {}).params) dat (pl.getD {}).contentType).error = none)
    (hnet : ∀ m' u' h' b' rt' rest', net m' u' h' b' rt' rest' = .resolve r)
    (hok : r.ok = true) :
    (r.status = 204 →
      fetchResponseData jsonParse r
          ((pl.getD {}).responseType.orElse (fun _ => c.defaultResponseType)) =
        .ok (.value (.str "")) ∧
      (request (fetchTransport net jsonParse) c m u dat pl).result =
        (pl.getD {}).defaultValue ∧
      (request (fetchTransport net jsonParse) c m u dat pl).lastError = none) ∧
    (r.status ≠ 204 → r.bodyText = "" → (pl.getD {}).responseType = some .Json →
      strStartsWith ((getContentTypeAndCharset (.native r.headers)).1)
          "application/octet-stream" = false →
      fetchResponseData jsonParse r (some .Json) = .ok (.value (.str "")) ∧
      (request (fetchTransport net jsonParse) c m u dat pl).result =
        (pl.getD {}).defaultValue ∧
      (request (fetchTransport net jsonParse) c m u dat pl).lastError = none) := by
  constructor
  · intro h204
    have hsent : ∀ rt, fetchResponseData jsonParse r rt = .ok (.value (.str "")) := by
      intro rt
      simp [fetchResponseData, h204]
    refine ⟨hsent _, ?_, ?_⟩
    · simp only [request]
      split
      · next msg heq => rw [hfd] at heq; cases heq
      · simp [responsePromiseHandler, fetchTransport, hnet, hok, hsent, isEmptyResult]
    · simp only [request]
      split
      · next msg heq => rw [hfd] at heq; cases heq
      · simp [responsePromiseHandler, fetchTransport, hnet, hok, hsent, isEmptyResult]
  · intro h204 hbody hjson hoct
    have hsent : fetchResponseData jsonParse r (some .Json) = .ok (.value (.str "")) := by
      have hne : (r.status == 204) = false := by simpa using h204
      simp [fetchResponseData, hne, hoct, hbody]
    have hrt : (pl.getD {}).responseType.orElse (fun _ => c.defaultResponseType) =
        some .Json := by
      rw [hjson]; rfl
    refine ⟨hsent, ?_, ?_⟩
    · simp only [request]
      split
      · next msg heq => rw [hfd] at heq; cases heq
      · simp [responsePromiseHandler, fetchTransport, hnet, hok, hrt, hsent, isEmptyResult]
    · simp only [request]
      split
      · next msg heq => rw [hfd] at heq; cases heq
      · simp [responsePromiseHandler, fetchTransport, hnet, hok, hrt, hsent, isEmptyResult]

/-- The 204 response and the empty-JSON-body response of the C7
witness. -/
def resp204 : FetchResponse :=
  ⟨true, 204, "", [], "ignored", none⟩

def respEmptyJson : FetchResponse :=
  ⟨true, 200, "OK", [("content-type", "application/json")], "", none⟩

set_option maxRecDepth 4000 in
/-- Witness for C7 (amended) at concrete inputs: a 204 response and a
200 response with an empty JSON body both make `request` return the
declared default value. -/
theorem fetch_empty_sentinel_maps_to_default_witness :
    (request (fetchTransport (fun _ _ _ _ _ _ => .resolve resp204) stubParse)
        ({} : ClientM FetchResponse) .GET "/x" none
        (some { defaultValue := some (.value (.obj [])) })).result =
      some (.value (.obj [])) ∧
    (request (fetchTransport (fun _ _ _ _ _ _ => .resolve respEmptyJson) stubParse)
        ({} : ClientM FetchResponse) .GET "/x" none
        (some { responseType := some .Json,
                defaultValue := some (.value (.obj [])) })).result =
      some (.value (.obj [])) := by
  constructor
  · exact ((fetch_empty_sentinel_maps_to_default _ stubParse {} .GET "/x" none
      (some { defaultValue := some (.value (.obj [])) }) resp204 rfl
      (fun _ _ _ _ _ _ => rfl) rfl).1 rfl).2.1
  · exact ((fetch_empty_sentinel_maps_to_default _ stubParse {} .GET "/x" none
      (some { responseType := some .Json, defaultValue := some (.value (.obj [])) })
      respEmptyJson rfl (fun _ _ _ _ _ _ => rfl) rfl).2 (by decide) rfl rfl
      (by decide)).2.1

end RestClient
